import Mathlib

/-!
Shallow embedding of `src/main.py` of the Proxer repository.

Python strings are modelled as `List Char` (called `Str` below); Python
sets are modelled as lists carrying one fixed iteration order (CPython
iterates an unmutated set in the same order every time within a run),
deduplicated with `List.dedup` where the code builds a set.  Network and
filesystem effects are made explicit: functions that perform I/O take the
network's behaviour as an oracle argument and return an explicit log of
the effects they perform, so that "no network call is made" is a statement
about that log.  Exceptions are modelled with `Except` / `Option`.
-/

namespace Proxer

/-- A Python string, modelled character by character. -/
abbrev Str := List Char

/-- From `ProxyManager.PROXY_SOURCES` (src/main.py lines 14-21): the known
scraping sources, as an association list from source name to URL. -/
def PROXY_SOURCES : List (String × String) :=
  [("sslproxies", "https://www.sslproxies.org/"),
   ("freeproxylist", "https://free-proxy-list.net/"),
   ("usproxy", "https://www.us-proxy.org/"),
   ("socksproxy", "https://www.socks-proxy.net/"),
   ("spysme", "https://spys.me/proxy.txt"),
   ("proxydaily", "https://proxy-daily.com/")]

/-- The keys of `PROXY_SOURCES`. -/
def sourceKeys : List String := PROXY_SOURCES.map Prod.fst

/-- From `ProxyManager.TIMEOUT` (src/main.py line 25). -/
def TIMEOUT : Nat := 5

/-- From `ProxyManager.MAX_WORKERS` (src/main.py line 26): the concurrency
bound handed to `ThreadPoolExecutor`. -/
def MAX_WORKERS : Nat := 50

/-- From `ProxyManager.OUTPUT_DIR` (src/main.py line 23). -/
def OUTPUT_DIR : Str := "ProxerProxies".data

/-- The transport-level errors `requests.get` can raise inside
`test_proxy` (src/main.py lines 96-100); the bare `except:` on line 104
catches every one of them.  `otherException` stands for anything else a
bare `except:` swallows. -/
inductive PyErr where
  | dnsFailure
  | connectionRefused
  | tlsFailure
  | timeout
  | malformedResponse
  | otherException
deriving DecidableEq

/-- The parts of a `requests` response object that `test_proxy` reads:
`response.status_code` and `response.text`. -/
structure HttpResponse where
  status_code : Nat
  text : Str
deriving DecidableEq

/-- From `ProxyManager.test_proxy` (src/main.py lines 94-107).  The
network interaction `requests.get(...)` is summarised by its outcome
`fetched`: either a transport error (modelling a raised exception) or a
response.  The translation is total and returns `Bool`, exactly as the
Python function always returns a bool to its caller: the `try` body
returns `True` when `status_code == 200` and the text contains the
substring `origin`; every raised exception falls into `except: pass` and
reaches `return False`, as does a response failing the test. -/
def test_proxy (fetched : Except PyErr HttpResponse) : Bool :=
  match fetched with
  | .error _ => false
  | .ok r => if r.status_code == 200 && decide (List.IsInfix "origin".data r.text) then true else false

/-- The observable behaviour of one `filter_proxies` run
(src/main.py lines 109-117): the returned list `valid`, the endpoints
passed to `test_proxy` by `executor.map` in order (`probed`), and the
`(proxy, is_working)` pairs the `zip` loop iterates over (`outcomes`). -/
structure FilterRun where
  valid : List Str
  probed : List Str
  outcomes : List (Str × Bool)
deriving DecidableEq

/-- From `ProxyManager.filter_proxies` (src/main.py lines 109-117).
`proxies` is the iteration order of the input set, fixed for the whole
run; `probe` is the outcome `test_proxy` produces for each endpoint.
`executor.map(self.test_proxy, proxies)` applies `test_proxy` to every
element of `proxies` exactly once, in order, so `results` is
`proxies.map probe` and the probe log is `proxies` itself; the loop
`for proxy, is_working in zip(proxies, results)` appends `proxy` to
`valid` whenever `is_working` holds.  No validation of the endpoint
format happens anywhere in the function. -/
def filter_proxies (probe : Str → Bool) (proxies : List Str) : FilterRun :=
  let results := proxies.map probe
  let pairs := proxies.zip results
  { valid := pairs.filterMap (fun pr => if pr.2 then some pr.1 else none)
    probed := proxies
    outcomes := pairs }

/-- Models `'\n'.join(proxies)` (src/main.py line 40): the empty string
for an empty list, and the pieces separated by single newlines
otherwise. -/
def joinNL : List Str → Str
  | [] => []
  | [x] => x
  | x :: xs => x ++ '\n' :: joinNL xs

/-- Models Python `str.splitlines` on text whose only line terminator is
`'\n'` (the only terminator `save_proxies` ever writes): the empty string
has no lines; otherwise each `'\n'` ends a line, and a final segment
without a trailing `'\n'` is still a line. -/
def splitlinesNL : Str → List Str
  | [] => []
  | c :: cs =>
    if c = '\n' then [] :: splitlinesNL cs
    else
      match splitlinesNL cs with
      | [] => [[c]]
      | line :: rest => (c :: line) :: rest

/-- The observable behaviour of one `save_proxies` call: the path written
to, the file content, and the value the Python call returns. -/
structure SaveRun where
  file_path : Str
  content : Str
  ret : Option Str
deriving DecidableEq

/-- From `ProxyManager.save_proxies` (src/main.py lines 36-41).
`proxies` is the iteration order of the input set and `timestamp` the
string `get_timestamp()` produced.  The file path is
`OUTPUT_DIR / f"{pre}_{timestamp}.txt"` (the Python parameter is named
`prefix`); the content written is `'\n'.join(proxies)`.  The Python
function is annotated `-> Path` but contains no `return` statement, so
every call returns `None`; `ret` is that returned value. -/
def save_proxies (proxies : List Str) (pre : Str) (timestamp : Str) : SaveRun :=
  { file_path := OUTPUT_DIR ++ '/' :: (pre ++ '_' :: (timestamp ++ ".txt".data))
    content := joinNL proxies
    ret := none }

/-- From `ProxyCLI.check_proxies_menu` (src/main.py lines 159-160):
`set(f.read().splitlines())` — the file content split into lines and
collapsed into a set, modelled as a deduplicated list. -/
def check_read (content : Str) : List Str := (splitlinesNL content).dedup

/-- A maximal run of ASCII digits test, used to model both the regex
atom `\d+` and Python `str.isdigit` on the strings this program meets:
nonempty and all decimal digits. -/
def allDigits (s : Str) : Bool := !s.isEmpty && s.all (·.isDigit)

/-- Models `re.match(r'^\d+\.\d+\.\d+\.\d+$', s)` as a Bool: exactly four
nonempty digit runs separated by dots. -/
def ipv4Match (s : Str) : Bool :=
  match s.splitOn '.' with
  | [a, b, c, d] => allDigits a && allDigits b && allDigits c && allDigits d
  | _ => false

/-- Models `re.match(r'^\d+\.\d+\.\d+\.\d+:\d+$', s)` as a Bool
(src/main.py line 55): an ipv4-shaped part, one colon, then a nonempty
digit run. -/
def isProxyLine (s : Str) : Bool :=
  match s.splitOn ':' with
  | [ip, port] => ipv4Match ip && allDigits port
  | _ => false

/-- From `ProxyManager.parse_spysme` (src/main.py lines 52-56): the set
of lines of the response text matching the proxy pattern. -/
def parse_spysme (response_text : Str) : List Str :=
  ((splitlinesNL response_text).filter isProxyLine).dedup

/-- From `ProxyManager.parse_html_table` (src/main.py lines 58-64).  The
BeautifulSoup object is summarised as the list of table rows, each row
the list of its cell texts.  A row with no cells is skipped (empty
`columns` is falsy).  When the first cell matches the IPv4 pattern the
code reads `columns[1]` without checking the row has a second cell: a
one-cell row whose cell matches raises `IndexError`, modelled as
`Except.error`. -/
def parse_html_table : List (List Str) → Except Unit (List Str)
  | [] => .ok []
  | row :: rest =>
    match row with
    | [] => parse_html_table rest
    | c0 :: cols =>
      if ipv4Match c0 then
        match cols with
        | [] => .error ()
        | c1 :: _ =>
          if allDigits c1 then
            match parse_html_table rest with
            | .ok ps => .ok ((c0 ++ ':' :: c1) :: ps)
            | .error e => .error e
          else parse_html_table rest
      else parse_html_table rest

/-- An externally visible side effect of `get_proxies`: an outbound
`requests.get` to a source URL, or the file write done by
`save_proxies`. -/
inductive Effect where
  | netGet (url : String)
  | fileWrite
deriving DecidableEq

/-- The exceptions `get_proxies` can raise to its caller: the
`ValueError` for unknown source names (carrying them), or the `IndexError`
escaping `parse_html_table` (only `requests.RequestException` is caught
in the loop). -/
inductive GetErr where
  | valueError (invalid : List String)
  | indexError
deriving DecidableEq

/-- What one fetch of a source URL yields when no exception is raised:
the response text (read by `parse_spysme`) and the parsed table rows
(read by `parse_html_table`). -/
structure FetchData where
  text : Str
  rows : List (List Str)

/-- The `for source in sources` loop of `get_proxies`
(src/main.py lines 75-89).  `fetch` is the network oracle: `none` models
`requests.get` or `raise_for_status` raising a `RequestException`, which
the `except` clause turns into `continue`.  Every iteration issues one
`netGet` effect; `spysme` responses go through `parse_spysme`, all other
sources through `parse_html_table`, whose `IndexError` escapes the loop
with the effects performed so far. -/
def getLoop (fetch : String → Option FetchData) :
    List String → List Str → List Effect → Except GetErr (List Str) × List Effect
  | [], acc, effs => (.ok acc, effs)
  | src :: rest, acc, effs =>
    let url := ((PROXY_SOURCES.find? (fun p => p.1 == src)).map Prod.snd).getD ""
    let effs2 := effs ++ [Effect.netGet url]
    match fetch url with
    | none => getLoop fetch rest acc effs2
    | some data =>
      if src == "spysme" then getLoop fetch rest (acc ++ parse_spysme data.text) effs2
      else
        match parse_html_table data.rows with
        | .error _ => (.error .indexError, effs2)
        | .ok ps => getLoop fetch rest (acc ++ ps) effs2

/-- Models `invalid_sources = set(sources) - set(self.PROXY_SOURCES.keys())`
(src/main.py line 70): the requested names that are not known source
keys, as a deduplicated list. -/
def invalid_sources (sources : List String) : List String :=
  (sources.filter (fun s => !(sourceKeys.contains s))).dedup

/-- From `ProxyManager.get_proxies` (src/main.py lines 66-92), for an
explicit source list (the Python `sources=None` default substitutes the
full key list before this logic runs).  First the unknown names in
`invalid_sources` are computed; if any exist a `ValueError` carrying
them is raised before the loop, so the effect log is empty.  Otherwise
the loop runs, the collected set is saved via `save_proxies` (one
`fileWrite` effect) and returned; set accumulation is rendered by the
final `dedup`. -/
def get_proxies (fetch : String → Option FetchData) (sources : List String) :
    Except GetErr (List Str) × List Effect :=
  if (invalid_sources sources).isEmpty then
    match getLoop fetch sources [] [] with
    | (.ok proxies, effs) => (.ok proxies.dedup, effs ++ [Effect.fileWrite])
    | (.error e, effs) => (.error e, effs)
  else (.error (.valueError (invalid_sources sources)), [])

/-! Helper lemmas about `filter_proxies`. -/

/-- The zip-then-keep-working loop of `filter_proxies` computes an
ordinary filter of the input by the probe outcome. -/
theorem zip_map_filterMap_eq_filter (probe : Str → Bool) (l : List Str) :
    ((l.zip (l.map probe)).filterMap fun pr => if pr.2 then some pr.1 else none)
      = l.filter probe := by
  induction l with
  | nil => rfl
  | cons x xs ih =>
    simp only [List.map_cons, List.zip_cons_cons, List.filterMap_cons, List.filter_cons]
    cases hx : probe x <;> simp [ih]

/-- Zipping a list with its own image under a function pairs every
element with its own image. -/
theorem zip_self_map (probe : Str → Bool) (l : List Str) :
    l.zip (l.map probe) = l.map fun p => (p, probe p) := by
  induction l with
  | nil => rfl
  | cons x xs ih => simp [ih]

/-- The list returned by `filter_proxies` is the filter of the input by
the probe outcome. -/
theorem filter_proxies_valid (probe : Str → Bool) (proxies : List Str) :
    (filter_proxies probe proxies).valid = proxies.filter probe := by
  simpa [filter_proxies] using zip_map_filterMap_eq_filter probe proxies

/-- C1: every endpoint in the list returned by `filter_proxies` is a
member of the candidate set it was called with, and is one whose probe
outcome was Working (`true`): the ValidationResult is a subset of the
CandidateSet. -/
theorem validation_result_subset_of_candidates (probe : Str → Bool)
    (proxies : List Str) (e : Str)
    (he : e ∈ (filter_proxies probe proxies).valid) :
    e ∈ proxies ∧ probe e = true := by
  rw [filter_proxies_valid] at he
  exact List.mem_filter.mp he

/-- Witness for C1 at a concrete input. -/
theorem validation_result_subset_of_candidates_witness :
    ('a' :: []) ∈ (['a'] :: []) ∧ (fun _ : Str => true) ('a' :: []) = true :=
  validation_result_subset_of_candidates (fun _ => true) (['a'] :: []) ('a' :: [])
    (by decide)

/-- C2: `test_proxy` classifies a received response as Working exactly
when its status code is 200 and its body contains the substring
`origin`; in particular a 200 response whose body lacks the marker is
Failed. -/
theorem test_proxy_working_iff_200_and_origin (r : HttpResponse) :
    test_proxy (.ok r) = true ↔
      r.status_code = 200 ∧ List.IsInfix "origin".data r.text := by
  simp [test_proxy]

/-- C3: `test_proxy` never raises to its caller: its translation is a
total function into `Bool`, and every raised transport-level exception
(DNS failure, connection refused, TLS failure, timeout, malformed
response, anything else the bare `except:` swallows) yields the Failed
outcome `false`. -/
theorem test_proxy_never_raises (e : PyErr) :
    test_proxy (.error e) = false := rfl

/-- C5 counterexample: `filter_proxies` does not exclude entries that
fail the endpoint pattern before probing.  On the input set containing
only the malformed string `not-an-ip` (which fails even the program's
own proxy-line pattern), a probe is still issued for that entry. -/
theorem malformed_entry_probed_counterexample :
    (filter_proxies (fun _ => false) ["not-an-ip".data]).probed
        = ["not-an-ip".data]
      ∧ isProxyLine "not-an-ip".data = false := by
  constructor
  · rfl
  · decide

/-- C5 amended: `filter_proxies` performs no input-format validation at
all: every entry of the candidate set, malformed or not, is passed to
`test_proxy`, and an entry is excluded from the result exactly when its
probe outcome is Failed.  No count of skipped entries exists or is
surfaced. -/
theorem filter_proxies_probes_all_entries (probe : Str → Bool)
    (proxies : List Str) :
    (filter_proxies probe proxies).probed = proxies
      ∧ (filter_proxies probe proxies).valid = proxies.filter probe :=
  ⟨rfl, filter_proxies_valid probe proxies⟩

/-- C6: on an empty candidate set, `filter_proxies` returns the empty
result and passes no endpoint to `test_proxy`: no probe, hence no
network call, is made. -/
theorem empty_candidate_set_no_probes (probe : Str → Bool) :
    (filter_proxies probe []).valid = [] ∧ (filter_proxies probe []).probed = [] :=
  ⟨rfl, rfl⟩

/-- C9: `save_proxies` is annotated `-> Path` in the source but has no
return statement, so for every input it returns `None`: no caller can
obtain the written file's path from its return value. -/
theorem save_proxies_returns_none (proxies : List Str) (pre timestamp : Str) :
    (save_proxies proxies pre timestamp).ret = none := rfl

/-- A duplicate-free list counts each of its members exactly once. -/
theorem count_one_of_nodup_mem :
    ∀ {l : List Str} {e : Str}, l.Nodup → e ∈ l → l.count e = 1 := by
  intro l
  induction l with
  | nil => intro e _ he; cases he
  | cons a as ih =>
    intro e hnd he
    have hnd' := List.nodup_cons.mp hnd
    rw [List.count_cons]
    rcases List.mem_cons.mp he with rfl | hmem
    · have h0 : as.count e = 0 := List.count_eq_zero.mpr hnd'.1
      simp [h0]
    · have hne : ¬ a = e := fun h => hnd'.1 (h ▸ hmem)
      have h1 := ih hnd'.2 hmem
      simp [h1, hne]

/-- C4: on a duplicate-free candidate set (Python sets hold distinct
elements), every endpoint is passed to `test_proxy` exactly once per
`filter_proxies` run — no endpoint probed twice, none dropped — and the
pairs the aggregation loop consumes pair every endpoint with its own
probe outcome. -/
theorem each_endpoint_probed_exactly_once (probe : Str → Bool)
    (proxies : List Str) (hnd : proxies.Nodup) :
    (∀ e ∈ proxies, (filter_proxies probe proxies).probed.count e = 1)
      ∧ (filter_proxies probe proxies).outcomes
          = proxies.map fun p => (p, probe p) := by
  constructor
  · intro e he
    exact count_one_of_nodup_mem hnd he
  · exact zip_self_map probe proxies

/-- Witness for C4 at a concrete two-endpoint candidate set. -/
theorem each_endpoint_probed_exactly_once_witness :
    (filter_proxies (fun _ => true) [['a'], ['b']]).probed.count ['a'] = 1
      ∧ (filter_proxies (fun _ => true) [['a'], ['b']]).outcomes
          = [(['a'], true), (['b'], true)] := by
  have h := each_endpoint_probed_exactly_once (fun _ => true) [['a'], ['b']]
    (by decide)
  exact ⟨h.1 ['a'] (by decide), by simpa using h.2⟩

/-! Helper lemmas for the persistence round trip. -/

/-- Unfolding equation of `splitlinesNL` on a nonempty string. -/
theorem splitlinesNL_cons (c : Char) (cs : Str) :
    splitlinesNL (c :: cs) =
      if c = '\n' then [] :: splitlinesNL cs
      else
        match splitlinesNL cs with
        | [] => [[c]]
        | line :: rest => (c :: line) :: rest := rfl

/-- A nonempty newline-free string is a single line. -/
theorem splitlines_single : ∀ x : Str, x ≠ [] → '\n' ∉ x →
    splitlinesNL x = [x] := by
  intro x
  induction x with
  | nil => intro hne _; exact absurd rfl hne
  | cons c cs ih =>
    intro _ hn
    have hc : ¬ c = '\n' := fun h => hn (by simp [h])
    cases cs with
    | nil =>
      rw [splitlinesNL_cons, if_neg hc]
      rfl
    | cons d ds =>
      have h2 := ih (by simp) (fun h => hn (List.mem_cons_of_mem _ h))
      rw [splitlinesNL_cons, if_neg hc, h2]

/-- Splitting after a newline-free first line peels it off. -/
theorem splitlines_append : ∀ (x rest : Str), '\n' ∉ x →
    splitlinesNL (x ++ '\n' :: rest) = x :: splitlinesNL rest := by
  intro x
  induction x with
  | nil => intro rest _; simp [splitlinesNL_cons]
  | cons c cs ih =>
    intro rest hn
    have hc : ¬ c = '\n' := fun h => hn (by simp [h])
    have h2 := ih rest (fun h => hn (List.mem_cons_of_mem _ h))
    rw [List.cons_append, splitlinesNL_cons, if_neg hc, h2]

/-- Splitting the newline join of nonempty newline-free lines recovers
the lines. -/
theorem splitlines_joinNL : ∀ l : List Str, (∀ x ∈ l, x ≠ [] ∧ '\n' ∉ x) →
    splitlinesNL (joinNL l) = l := by
  intro l
  induction l with
  | nil => intro _; rfl
  | cons x xs ih =>
    intro h
    cases xs with
    | nil =>
      have hx := h x (by simp)
      simpa [joinNL] using splitlines_single x hx.1 hx.2
    | cons y ys =>
      have hx := h x (by simp)
      have hrec := ih (fun z hz => h z (List.mem_cons_of_mem _ hz))
      rw [show joinNL (x :: y :: ys) = x ++ '\n' :: joinNL (y :: ys) from rfl,
          splitlines_append x _ hx.2, hrec]

/-- C7: writing a duplicate-free list of endpoints (each nonempty and
newline-free, as every `host:port` string is) with `save_proxies` and
reading the written content back the way `check_proxies_menu` does —
splitting on newlines into a set — reproduces the identical set of
endpoints. -/
theorem persistence_round_trip (l : List Str) (pre timestamp : Str)
    (hnd : l.Nodup) (h : ∀ x ∈ l, x ≠ [] ∧ '\n' ∉ x) :
    check_read (save_proxies l pre timestamp).content = l := by
  show (splitlinesNL (joinNL l)).dedup = l
  rw [splitlines_joinNL l h, List.dedup_eq_self.mpr hnd]

/-- Witness for C7 at a concrete two-endpoint result set. -/
theorem persistence_round_trip_witness :
    check_read (save_proxies [['a'], ['b']] [] []).content = [['a'], ['b']] :=
  persistence_round_trip [['a'], ['b']] [] [] (by decide) (by decide)

/-- C10: whenever the requested source list contains a name that is not
a `PROXY_SOURCES` key, `get_proxies` raises a `ValueError` carrying the
invalid names — every invalid requested name is in the payload — and its
effect log is empty: no network request is issued and no file is
written. -/
theorem get_proxies_invalid_sources_error (fetch : String → Option FetchData)
    (sources : List String) (s : String) (hs : s ∈ sources)
    (hbad : sourceKeys.contains s = false) :
    get_proxies fetch sources
        = (.error (.valueError (invalid_sources sources)), [])
      ∧ s ∈ invalid_sources sources := by
  have hmem : s ∈ sources.filter fun t => !(sourceKeys.contains t) :=
    List.mem_filter.mpr ⟨hs, by show (!(sourceKeys.contains s)) = true; rw [hbad]; rfl⟩
  have hmem2 : s ∈ invalid_sources sources := List.mem_dedup.mpr hmem
  refine ⟨?_, hmem2⟩
  have hne : (invalid_sources sources).isEmpty = false := by
    cases hd : invalid_sources sources with
    | nil => rw [hd] at hmem2; cases hmem2
    | cons a as => rfl
  unfold get_proxies
  rw [hne]
  simp

/-- Witness for C10 at a concrete invalid source name. -/
theorem get_proxies_invalid_sources_error_witness :
    get_proxies (fun _ => none) ["bogus"]
        = (.error (.valueError ["bogus"]), [])
      ∧ invalid_sources ["bogus"] = ["bogus"] := by
  have h := get_proxies_invalid_sources_error (fun _ => none) ["bogus"] "bogus"
    (by decide) (by decide)
  exact ⟨h.1, rfl⟩

end Proxer
